import Mathlib

/-!
Verification of the process-introspection subsystem of libpod
(src/libpod/container_top_linux.go): the dispatcher Top, the structured
provider wrapper GetContainerPidInformation, and the host-binary fallback
executor execPS.

The Go code is shallowly embedded: the OS facilities it consumes (state
lookup, the psgo provider, shlex splitting, path lookup, file opening,
the ldd subprocess, and the namespace-join-and-exec step) are parameters
of the embedding, while every decision made by the code of this source
file (normalization loops, error classification, argument construction,
output filtering) is translated directly from the source. File
descriptors returned by successive successful opens are modelled by a
counter, mirroring the kernel guarantee that concurrently open
descriptors are pairwise distinct; the counter starts at 3 (0 to 2 are
the standard streams; the pipe ends are never referenced by fd path, so
they are not numbered).
-/

namespace LibpodTop

/-! ## String helpers modelling the Go strings package -/

/-- Split a character list at every separator character, as Go
strings.Split does for a one-character separator: consecutive separators
produce empty fields and the empty input produces one empty field.
The second argument accumulates the current field in reverse. -/
def splitChars (p : Char → Bool) : List Char → List Char → List (List Char)
  | [], cur => [cur.reverse]
  | c :: cs, cur =>
    if p c then cur.reverse :: splitChars p cs []
    else splitChars p cs (c :: cur)

/-- Go strings.Split(s, sep) for a one-character separator sep. -/
def goSplitOn (sep : Char) (s : String) : List String :=
  (splitChars (fun c => c == sep) s.data []).map String.mk

/-- The white-space predicate of Go unicode.IsSpace restricted to the
ASCII range (space, tab, newline, vertical tab, form feed, carriage
return), which is all that ldd output contains. -/
def goIsSpace (c : Char) : Bool :=
  c == ' ' || c == '\t' || c == '\n' || c == '\r' ||
    c == Char.ofNat 11 || c == Char.ofNat 12

/-- Go strings.Fields: split around runs of white space, no empties. -/
def goFields (s : String) : List String :=
  ((splitChars goIsSpace s.data []).map String.mk).filter (fun t => t != "")

/-- Go strings.Join(elems, sep). -/
def goJoin (sep : String) : List String → String
  | [] => ""
  | x :: xs => xs.foldl (fun acc y => acc ++ sep ++ y) x

/-- Whether the first list is an initial segment of the second. -/
def leadsChars : List Char → List Char → Bool
  | [], _ => true
  | _ :: _, [] => false
  | a :: as, b :: bs => a == b && leadsChars as bs

/-- Whether the first list occurs contiguously inside the second. -/
def containsChars (needle : List Char) : List Char → Bool
  | [] => leadsChars needle []
  | b :: bs => leadsChars needle (b :: bs) || containsChars needle bs

/-- Go strings.Contains(hay, needle). -/
def containsSubstr (hay needle : String) : Bool :=
  containsChars needle.data hay.data

/-- Go path.IsAbs: non-empty and starting with a slash. -/
def isAbsGo (s : String) : Bool :=
  match s.data with
  | '/' :: _ => true
  | _ => false

/-! ## Decimal printing, modelling fmt.Sprintf with a %d verb -/

/-- The character of a single decimal digit. -/
def digitChar (d : Nat) : Char := Char.ofNat (48 + d)

/-- Decimal digits of a natural number, most significant first; the
first argument is fuel, for which n + 1 always suffices. -/
def natReprAux : Nat → Nat → List Char
  | 0, _ => []
  | fuel + 1, n =>
    if n < 10 then [digitChar n]
    else natReprAux fuel (n / 10) ++ [digitChar (n % 10)]

/-- Decimal rendering of a natural number. -/
def natRepr (n : Nat) : String := String.mk (natReprAux (n + 1) n)

/-- Decimal rendering of an integer (Go %d on a possibly negative
value, such as an exit code of -1 for a signalled process). -/
def intRepr : Int → String
  | .ofNat n => natRepr n
  | .negSucc n => "-" ++ natRepr (n + 1)

/-- The /proc/self/fd alias of an open file descriptor, as built by
fmt.Sprintf in execPS. -/
def fdPath (fd : Nat) : String := "/proc/self/fd/" ++ natRepr fd

/-- Recover the value of a most-significant-first decimal digit list. -/
def valOfDigits (l : List Char) : Nat :=
  l.foldl (fun acc c => acc * 10 + (c.toNat - 48)) 0

/-! ## Error model

Go errors are values; fmt.Errorf with a %w verb produces a wrapping
error whose cause is recovered by errors.Unwrap, and errors.Is walks
the wrap chain comparing against a target sentinel. Sentinels declared
by external packages (psgo.ErrUnknownDescriptor, define.ErrNoCgroups)
are modelled as base errors; only their identity matters, not their
text. An ExitError of the os/exec package is modelled by its exit
code. -/

inductive GoError where
  | base (msg : String)
  | wrap (ctx : String) (inner : GoError)
  | exitErr (code : Int)
deriving DecidableEq

deriving instance DecidableEq for Except

/-- Go errors.Is: compare against the target, unwrapping step by step. -/
def errorsIs : GoError → GoError → Bool
  | .wrap ctx inner, target =>
    if GoError.wrap ctx inner = target then true else errorsIs inner target
  | e, target => if e = target then true else false

/-- Whether the outermost layer of an error is a context wrapper. -/
def isWrapped : GoError → Bool
  | .wrap _ _ => true
  | _ => false

/-- Sentinel psgo.ErrUnknownDescriptor of the structured provider. -/
def ErrUnknownDescriptor : GoError := .base "unknown descriptor"

/-- Sentinel define.ErrNoCgroups of the libpod define package. -/
def ErrNoCgroups : GoError := .base "this container does not have a cgroup"

/-! ## Container model -/

/-- Lifecycle states of a container (libpod define package). -/
inductive ContainerState where
  | configured
  | created
  | running
  | stopped
  | paused
  | exited
deriving DecidableEq

/-- The slice of the container configuration that Top consults. -/
structure ContainerConfig where
  NoCgroups : Bool
deriving DecidableEq

/-- The slice of the container handle that Top consults: its
configuration and its identifier (the pid of the init process only
feeds the namespace-join step, which is abstracted below). -/
structure Container where
  config : ContainerConfig
  id : String
deriving DecidableEq

/-! ## Host environment and the fallback executor execPS -/

/-- Result of the namespace-join-and-exec sequence run on the pinned
thread of execPS: a namespace step failed before the child started (the
error already carries its step context), the child could not be
launched, or the child ran to completion with an exit code, the lines
it wrote to the stdout pipe, and the bytes it wrote to stderr. Go
cmd.Run returns nil on exit code zero and an ExitError otherwise. -/
inductive ExecOutcome where
  | nsFailed (e : GoError)
  | startFailed (e : GoError)
  | exited (code : Int) (stdoutLines : List String) (stderrText : String)

/-- Host OS facilities consumed by execPS. Opening a file either
succeeds (openOk) — successive successes are numbered by a counter in
execPS — or fails with openErr. lddOut is the result of the ldd
subprocess run against the fd alias of the borrowed binary. run maps
the constructed argument vector to the outcome of the pinned
namespace-join-and-exec sequence. -/
structure HostEnv where
  psLookup : Except GoError String
  openOk : String → Bool
  openErr : String → GoError
  lddOut : Except GoError String
  run : List String → ExecOutcome

/-- The ldd-output scan of execPS (source lines 163-187): for each
line, a line of more than three fields reports a shared library whose
resolved path is the third field — opened on the host, a failure being
tolerated by simply not recording a preload alias; a line of exactly
two fields whose first field is absolute is the dynamic linker — opened
on the host, a failure aborting execPS with that error. nextFd is the
number the next successful open will receive; preload and linkerPath
accumulate exactly as the Go locals do. -/
def processLddLines (env : HostEnv) :
    List String → Nat → List String → String →
    Except GoError (Nat × List String × String)
  | [], nextFd, preload, linkerPath => .ok (nextFd, preload, linkerPath)
  | line :: rest, nextFd, preload, linkerPath =>
    let fields := goFields line
    if 3 < fields.length then
      if env.openOk (fields.getD 2 "") then
        processLddLines env rest (nextFd + 1) (preload ++ [fdPath nextFd]) linkerPath
      else
        processLddLines env rest nextFd preload linkerPath
    else if fields.length = 2 then
      if isAbsGo (fields.getD 0 "") then
        if env.openOk (fields.getD 0 "") then
          processLddLines env rest (nextFd + 1) preload (fdPath nextFd)
        else
          .error (env.openErr (fields.getD 0 ""))
      else
        processLddLines env rest nextFd preload linkerPath
    else
      processLddLines env rest nextFd preload linkerPath

/-- The tail of execPS (source lines 195-262): run the constructed
argument vector inside the container namespaces and classify the result
exactly as the code does after cmd.Run — a namespace-step error is
surfaced as sent on the error channel; a non-zero exit with bytes on
stderr becomes a plain error carrying the exit code and the stderr
text; any other failure (non-zero exit with empty stderr, or a launch
failure) wraps the underlying cause. The captured stdout lines are
returned alongside, as the Go code returns the stdout slice even on
error. -/
def runPhase (env : HostEnv) (args : List String) : List String × Option GoError :=
  match env.run args with
  | .nsFailed e => ([], some e)
  | .startFailed e => ([], some (.wrap "could not execute ps in the container" e))
  | .exited code lines stderrText =>
    if code = 0 then (lines, none)
    else if stderrText ≠ "" then
      (lines, some (.base ("ps failed with exit code " ++ intRepr code ++ ": " ++ stderrText)))
    else
      (lines, some (.wrap "could not execute ps in the container" (.exitErr code)))

/-- The fallback executor (source lines 127-263): look up the host ps
binary, open it as fd 3 and refer to it by its fd alias, ask ldd for
its shared libraries — an ldd failure is tolerated and skips the whole
preload block — then, when ldd succeeded, scan its lines and prepend
the linker invocation (linker alias, the argument-zero override to the
literal name ps, and the space-joined preload aliases) before the
borrowed binary alias and the caller descriptor tokens. -/
def execPS (env : HostEnv) (psArgs : List String) : List String × Option GoError :=
  match env.psLookup with
  | .error e => ([], some e)
  | .ok psPathHost =>
    if env.openOk psPathHost then
      let psPath := fdPath 3
      let args := psPath :: psArgs
      match env.lddOut with
      | .error _ => runPhase env args
      | .ok out =>
        match processLddLines env (goSplitOn '\n' out) 4 [] "" with
        | .error e => ([], some e)
        | .ok (_, preload, linkerPath) =>
          runPhase env
            ([linkerPath, "--argv0", "ps", "--preload", goJoin " " preload] ++ args)
    else ([], some (env.openErr psPathHost))

/-! ## The dispatcher Top and the structured provider wrapper -/

/-- Environment of Top: the state lookup of the container handle, the
external psgo capability (rows of column values, or an error that may
wrap psgo.ErrUnknownDescriptor), the shlex word splitter of the
google/shlex package, and the host facilities of execPS. -/
structure TopEnv where
  state : Except GoError ContainerState
  psgo : List String → Except GoError (List (List String))
  shlexSplit : String → Except GoError (List String)
  host : HostEnv

/-- GetContainerPidInformation (source lines 102-119): call psgo with
the descriptors, propagate its error unchanged, and tab-join each
returned row. -/
def GetContainerPidInformation (env : TopEnv) (descriptors : List String) :
    Except GoError (List String) :=
  match env.psgo descriptors with
  | .error e => .error e
  | .ok rows => .ok (rows.map (goJoin "\t"))

/-- First-pass descriptor normalization of Top (source lines 42-49):
split every input token on commas and keep the non-empty pieces,
accumulating by appends exactly as the Go loop does. -/
def commaDescriptors (descriptors : List String) : List String :=
  descriptors.foldl
    (fun acc d => acc ++ (goSplitOn ',' d).filter (fun s => s != "")) []

/-- Second-pass normalization of Top (source lines 63-74): shlex-split
every original token, stopping at the first split error, and keep the
non-empty pieces of the splits in order. -/
def shlexDescriptors (split : String → Except GoError (List String)) :
    List String → Except GoError (List String)
  | [] => .ok []
  | d :: rest =>
    match split d with
    | .error e => .error e
    | .ok shSplit =>
      match shlexDescriptors split rest with
      | .error e => .error e
      | .ok tail => .ok (shSplit.filter (fun s => s != "") ++ tail)

/-- Invocation-echo filtering of Top (source lines 83-89): drop every
output line that contains the space-joined original descriptors. -/
def filterCmdLines (descriptors output : List String) : List String :=
  let cmd := goJoin " " descriptors
  output.filter (fun line => !containsSubstr line cmd)

/-- Fallback tail of Top (source lines 76-91): run execPS on the
re-tokenized descriptors, wrap its error with the executing-ps context,
and filter the invocation echo from its output. -/
def fallbackStage (env : TopEnv) (descriptors psDescriptors : List String) :
    Except GoError (List String) :=
  match execPS env.host psDescriptors with
  | (_, some e) => .error (.wrap "executing ps(1) in the container" e)
  | (output, none) => .ok (filterCmdLines descriptors output)

/-- Structured-provider stage of Top and its fallback decision (source
lines 54-79): on provider success return the rows; intercept exactly
the errors matching psgo.ErrUnknownDescriptor and fall back, returning
every other provider error unchanged. -/
def afterStructured (env : TopEnv) (descriptors psgoDescriptors : List String) :
    Except GoError (List String) :=
  match GetContainerPidInformation env psgoDescriptors with
  | .ok output => .ok output
  | .error psgoErr =>
    if errorsIs psgoErr ErrUnknownDescriptor then
      match shlexDescriptors env.shlexSplit descriptors with
      | .error e => .error (.wrap "parsing ps args" e)
      | .ok psDescriptors => fallbackStage env descriptors psDescriptors
    else .error psgoErr

/-- The dispatcher (source lines 28-92): refuse containers without a
cgroup, refuse containers whose state lookup fails or is not running,
then run the structured stage on the comma-normalized descriptors. -/
def Top (c : Container) (env : TopEnv) (descriptors : List String) :
    Except GoError (List String) :=
  if c.config.NoCgroups then
    .error (.wrap ("cannot run top on container " ++ c.id ++
      " as it did not create a cgroup") ErrNoCgroups)
  else
    match env.state with
    | .error e => .error (.wrap ("unable to look up state for " ++ c.id) e)
    | .ok conStat =>
      if conStat ≠ ContainerState.running then
        .error (.base "top can only be used on running containers")
      else
        afterStructured env descriptors (commaDescriptors descriptors)

/-! ## Definitions written from the specification text, for comparison
with the definitions translated from the source -/

/-- Written from the specification text: the first-pass normalization
is the concatenation, in input order, of each input token split on
commas with empty tokens discarded. -/
def specCommaTokens (descriptors : List String) : List String :=
  (descriptors.map (fun d => (goSplitOn ',' d).filter (fun s => s != ""))).flatten

/-- Written from the specification text: scanning the reported linkage
lines in order, every shared-library line whose resolved path opens
contributes the alias of the descriptor number its open received,
exactly once, in the order the lines are reported; an open of the
dynamic linker also consumes a descriptor number. -/
def specPreloadAliases (env : HostEnv) : List String → Nat → List String
  | [], _ => []
  | line :: rest, fd =>
    let fields := goFields line
    if 3 < fields.length then
      if env.openOk (fields.getD 2 "") then
        fdPath fd :: specPreloadAliases env rest (fd + 1)
      else specPreloadAliases env rest fd
    else if fields.length = 2 then
      if isAbsGo (fields.getD 0 "") then
        if env.openOk (fields.getD 0 "") then specPreloadAliases env rest (fd + 1)
        else specPreloadAliases env rest fd
      else specPreloadAliases env rest fd
    else specPreloadAliases env rest fd

/-! ## Concrete containers, environments and linkage samples used by
the witnesses and counterexamples -/

/-- A host whose ldd invocation fails (static borrowed binary) and
whose child exits cleanly with no output. -/
def hostIdle : HostEnv :=
  { psLookup := .ok "/usr/bin/ps"
    openOk := fun _ => true
    openErr := fun s => .base ("open " ++ s)
    lddOut := .error (.base "ldd failed")
    run := fun _ => .exited 0 [] "" }

/-- A host whose child echoes its own invocation among its output. -/
def hostEcho : HostEnv := { hostIdle with run := fun _ => .exited 0 ["PID CMD", "7 ps -ef"] "" }

/-- A host whose child produces two plain output lines. -/
def hostRunOk : HostEnv := { hostIdle with run := fun _ => .exited 0 ["PID TTY", "1 ?"] "" }

/-- A host whose child exits with code 2 and diagnostic bytes on
stderr. -/
def hostExit2 : HostEnv := { hostIdle with run := fun _ => .exited 2 ["out line"] "boom" }

/-- A host whose child exits with code 3 and an empty stderr. -/
def hostExitSilent : HostEnv := { hostIdle with run := fun _ => .exited 3 ["out line"] "" }

/-- A host whose child cannot be launched at all. -/
def hostStartFail : HostEnv :=
  { hostIdle with run := fun _ => .startFailed (.base "no such file") }

/-- A linkage report with one resolved shared library and one dynamic
linker line, as ldd prints for a small dynamic binary. -/
def lddSample : String :=
  "\tlibc.so.6 => /lib/libc.so.6 (0x0001)\n\t/lib64/ld-linux.so.2 (0x0002)\n"

/-- A host whose borrowed binary is dynamically linked per lddSample. -/
def hostDyn : HostEnv := { hostIdle with lddOut := .ok lddSample }

/-- A linkage line whose shared-library path does not open. -/
def libFailLine : String := "\tlibm.so.6 => /lib/libmissing.so (0x0001)"

/-- A linkage line whose dynamic-linker path does not open. -/
def linkFailLine : String := "/lib64/ld-bad.so (0x0002)"

/-- A host on which exactly the two paths of the failing linkage lines
refuse to open, and whose ldd report is the failing linker line. -/
def hostSel : HostEnv :=
  { psLookup := .ok "/usr/bin/ps"
    openOk := fun s => s != "/lib/libmissing.so" && s != "/lib64/ld-bad.so"
    openErr := fun s => .base ("open " ++ s)
    lddOut := .ok linkFailLine
    run := fun _ => .exited 0 [] "" }

/-- A container with a cgroup. -/
def cOk : Container := { config := { NoCgroups := false }, id := "c0" }

/-- A container created without a cgroup. -/
def cNoCg : Container := { config := { NoCgroups := true }, id := "c1" }

/-- A running container environment whose provider succeeds with no
rows. -/
def envRunningIdle : TopEnv :=
  { state := .ok .running
    psgo := fun _ => .ok []
    shlexSplit := fun s => .ok [s]
    host := hostIdle }

/-- The same environment for a stopped container. -/
def envStopped : TopEnv := { envRunningIdle with state := .ok .stopped }

/-- An environment whose provider fails with an error unrelated to the
unknown-descriptor sentinel. -/
def envBoom : TopEnv := { envRunningIdle with psgo := fun _ => .error (.base "boom") }

/-- An environment whose provider fails with a wrapped
unknown-descriptor error and whose shlex splitter returns two words
for any token. -/
def envUnknown : TopEnv :=
  { envRunningIdle with
    psgo := fun _ => .error (.wrap "join" ErrUnknownDescriptor)
    shlexSplit := fun _ => .ok ["time", "comm"]
    host := hostRunOk }

/-- An environment whose provider fails with the unknown-descriptor
sentinel and whose fallback child echoes its invocation. -/
def envEcho : TopEnv :=
  { envRunningIdle with
    psgo := fun _ => .error ErrUnknownDescriptor
    host := hostEcho }

/-! ## Properties of the string helpers -/

theorem digitChar_toNat {d : Nat} (h : d < 10) : (digitChar d).toNat = 48 + d := by
  interval_cases d <;> decide

theorem valOfDigits_append_digit (l : List Char) (c : Char) :
    valOfDigits (l ++ [c]) = valOfDigits l * 10 + (c.toNat - 48) := by
  simp [valOfDigits, List.foldl_append]

theorem natReprAux_val : ∀ fuel n, n < fuel → valOfDigits (natReprAux fuel n) = n := by
  intro fuel
  induction fuel with
  | zero => intro n h; omega
  | succ fuel ih =>
    intro n h
    by_cases h10 : n < 10
    · simp only [natReprAux, if_pos h10]
      simp [valOfDigits, digitChar_toNat h10]
    · simp only [natReprAux, if_neg h10]
      rw [valOfDigits_append_digit]
      have hdiv : n / 10 < fuel := by
        have h1 : n / 10 < n := Nat.div_lt_self (by omega) (by omega)
        omega
      rw [ih (n / 10) hdiv, digitChar_toNat (Nat.mod_lt n (by omega))]
      omega

theorem natRepr_inj {a b : Nat} (h : natRepr a = natRepr b) : a = b := by
  have hd : natReprAux (a + 1) a = natReprAux (b + 1) b := congrArg String.data h
  have ha := natReprAux_val (a + 1) a (Nat.lt_succ_self a)
  have hb := natReprAux_val (b + 1) b (Nat.lt_succ_self b)
  rw [← ha, ← hb, hd]

theorem fdPath_inj {a b : Nat} (h : fdPath a = fdPath b) : a = b := by
  apply natRepr_inj
  have hdata : ("/proc/self/fd/").data ++ (natRepr a).data
      = ("/proc/self/fd/").data ++ (natRepr b).data := by
    have h1 : (fdPath a).data = (fdPath b).data := by rw [h]
    simpa [fdPath, String.data_append] using h1
  exact String.ext (List.append_cancel_left hdata)

theorem leadsChars_refl : ∀ l : List Char, leadsChars l l = true := by
  intro l
  induction l with
  | nil => rfl
  | cons c cs ih => simp [leadsChars, ih]

theorem containsChars_self : ∀ l : List Char, containsChars l l = true
  | [] => rfl
  | c :: cs => by simp [containsChars, leadsChars_refl]

theorem containsSubstr_self (s : String) : containsSubstr s s = true :=
  containsChars_self s.data

theorem joined_not_mem_filterCmdLines (descriptors output : List String) :
    goJoin " " descriptors ∉ filterCmdLines descriptors output := by
  intro hmem
  rcases List.mem_filter.mp hmem with ⟨_, hp⟩
  rw [containsSubstr_self] at hp
  simp at hp

theorem foldl_append_flat (f : String → List String) :
    ∀ (ds : List String) (acc : List String),
      ds.foldl (fun a d => a ++ f d) acc = acc ++ (ds.map f).flatten := by
  intro ds
  induction ds with
  | nil => intro acc; simp
  | cons d rest ih => intro acc; simp [List.foldl_cons, ih, List.append_assoc]

theorem commaDescriptors_eq_spec (descriptors : List String) :
    commaDescriptors descriptors = specCommaTokens descriptors := by
  simpa [commaDescriptors, specCommaTokens] using
    foldl_append_flat (fun d => (goSplitOn ',' d).filter (fun s => s != "")) descriptors []

/-! ## Properties of the second-pass (shlex) normalization -/

theorem shlexDescriptors_ok (split : String → Except GoError (List String))
    (toks : String → List String) :
    ∀ ds : List String, (∀ d ∈ ds, split d = .ok (toks d)) →
      shlexDescriptors split ds
        = .ok ((ds.map (fun d => (toks d).filter (fun s => s != ""))).flatten) := by
  intro ds
  induction ds with
  | nil => intro _; rfl
  | cons d rest ih =>
    intro h
    have hd := h d (by simp)
    have hrest := ih (fun x hx => h x (by simp [hx]))
    simp [shlexDescriptors, hd, hrest]

theorem shlexDescriptors_err (split : String → Except GoError (List String))
    (e : GoError) :
    ∀ (pre : List String) (d : String) (post : List String),
      (∀ x ∈ pre, ∃ ts, split x = .ok ts) → split d = .error e →
      shlexDescriptors split (pre ++ d :: post) = .error e := by
  intro pre
  induction pre with
  | nil => intro d post _ hd; simp [shlexDescriptors, hd]
  | cons x xs ih =>
    intro d post hall hd
    obtain ⟨ts, hts⟩ := hall x (by simp)
    have hrec := ih d post (fun y hy => hall y (by simp [hy])) hd
    simp [shlexDescriptors, hts, hrec]

/-! ## Properties of the linkage scan -/

theorem processLddLines_ok_preload (env : HostEnv) :
    ∀ (lines : List String) (fd : Nat) (pre : List String) (lk : String)
      (fd' : Nat) (preload : List String) (lk' : String),
      processLddLines env lines fd pre lk = .ok (fd', preload, lk') →
      preload = pre ++ specPreloadAliases env lines fd := by
  intro lines
  induction lines with
  | nil =>
    intro fd pre lk fd' preload lk' h
    simp only [processLddLines, Except.ok.injEq, Prod.mk.injEq] at h
    simp [specPreloadAliases, ← h.2.1]
  | cons line rest ih =>
    intro fd pre lk fd' preload lk' h
    simp only [processLddLines] at h
    simp only [specPreloadAliases]
    by_cases h3 : 3 < (goFields line).length
    · rw [if_pos h3] at h ⊢
      by_cases ho : env.openOk ((goFields line).getD 2 "") = true
      · rw [if_pos ho] at h ⊢
        have hrec := ih _ _ _ _ _ _ h
        simp [hrec, List.append_assoc]
      · rw [if_neg ho] at h ⊢
        exact ih _ _ _ _ _ _ h
    · rw [if_neg h3] at h ⊢
      by_cases h2 : (goFields line).length = 2
      · rw [if_pos h2] at h ⊢
        by_cases habs : isAbsGo ((goFields line).getD 0 "") = true
        · rw [if_pos habs] at h ⊢
          by_cases ho : env.openOk ((goFields line).getD 0 "") = true
          · rw [if_pos ho] at h ⊢
            exact ih _ _ _ _ _ _ h
          · rw [if_neg ho] at h
            simp at h
        · rw [if_neg habs] at h ⊢
          exact ih _ _ _ _ _ _ h
      · rw [if_neg h2] at h ⊢
        exact ih _ _ _ _ _ _ h

theorem processLddLines_ok_linker (env : HostEnv) :
    ∀ (lines : List String) (fd : Nat) (pre : List String) (lk : String)
      (fd' : Nat) (preload : List String) (lk' : String),
      processLddLines env lines fd pre lk = .ok (fd', preload, lk') →
      lk' = lk ∨ ∃ k, lk' = fdPath k := by
  intro lines
  induction lines with
  | nil =>
    intro fd pre lk fd' preload lk' h
    simp only [processLddLines, Except.ok.injEq, Prod.mk.injEq] at h
    exact .inl h.2.2.symm
  | cons line rest ih =>
    intro fd pre lk fd' preload lk' h
    simp only [processLddLines] at h
    by_cases h3 : 3 < (goFields line).length
    · rw [if_pos h3] at h
      by_cases ho : env.openOk ((goFields line).getD 2 "") = true
      · rw [if_pos ho] at h
        exact ih _ _ _ _ _ _ h
      · rw [if_neg ho] at h
        exact ih _ _ _ _ _ _ h
    · rw [if_neg h3] at h
      by_cases h2 : (goFields line).length = 2
      · rw [if_pos h2] at h
        by_cases habs : isAbsGo ((goFields line).getD 0 "") = true
        · rw [if_pos habs] at h
          by_cases ho : env.openOk ((goFields line).getD 0 "") = true
          · rw [if_pos ho] at h
            rcases ih _ _ _ _ _ _ h with heq | hk
            · exact .inr ⟨fd, heq⟩
            · exact .inr hk
          · rw [if_neg ho] at h
            simp at h
        · rw [if_neg habs] at h
          exact ih _ _ _ _ _ _ h
      · rw [if_neg h2] at h
        exact ih _ _ _ _ _ _ h

theorem specPreloadAliases_mem (env : HostEnv) :
    ∀ (lines : List String) (fd : Nat) (s : String),
      s ∈ specPreloadAliases env lines fd → ∃ k, fd ≤ k ∧ s = fdPath k := by
  intro lines
  induction lines with
  | nil => intro fd s hs; simp [specPreloadAliases] at hs
  | cons line rest ih =>
    intro fd s hs
    simp only [specPreloadAliases] at hs
    by_cases h3 : 3 < (goFields line).length
    · rw [if_pos h3] at hs
      by_cases ho : env.openOk ((goFields line).getD 2 "") = true
      · rw [if_pos ho] at hs
        rcases List.mem_cons.mp hs with heq | hmem
        · exact ⟨fd, Nat.le_refl fd, heq⟩
        · obtain ⟨k, hk, he⟩ := ih (fd + 1) s hmem
          exact ⟨k, by omega, he⟩
      · rw [if_neg ho] at hs
        exact ih fd s hs
    · rw [if_neg h3] at hs
      by_cases h2 : (goFields line).length = 2
      · rw [if_pos h2] at hs
        by_cases habs : isAbsGo ((goFields line).getD 0 "") = true
        · rw [if_pos habs] at hs
          by_cases ho : env.openOk ((goFields line).getD 0 "") = true
          · rw [if_pos ho] at hs
            obtain ⟨k, hk, he⟩ := ih (fd + 1) s hs
            exact ⟨k, by omega, he⟩
          · rw [if_neg ho] at hs
            exact ih fd s hs
        · rw [if_neg habs] at hs
          exact ih fd s hs
      · rw [if_neg h2] at hs
        exact ih fd s hs

theorem specPreloadAliases_nodup (env : HostEnv) :
    ∀ (lines : List String) (fd : Nat), (specPreloadAliases env lines fd).Nodup := by
  intro lines
  induction lines with
  | nil => intro fd; simp [specPreloadAliases]
  | cons line rest ih =>
    intro fd
    simp only [specPreloadAliases]
    by_cases h3 : 3 < (goFields line).length
    · rw [if_pos h3]
      by_cases ho : env.openOk ((goFields line).getD 2 "") = true
      · rw [if_pos ho]
        refine List.nodup_cons.mpr ⟨?_, ih (fd + 1)⟩
        intro hmem
        obtain ⟨k, hk, he⟩ := specPreloadAliases_mem env rest (fd + 1) _ hmem
        have := fdPath_inj he
        omega
      · rw [if_neg ho]
        exact ih fd
    · rw [if_neg h3]
      by_cases h2 : (goFields line).length = 2
      · rw [if_pos h2]
        by_cases habs : isAbsGo ((goFields line).getD 0 "") = true
        · rw [if_pos habs]
          by_cases ho : env.openOk ((goFields line).getD 0 "") = true
          · rw [if_pos ho]
            exact ih (fd + 1)
          · rw [if_neg ho]
            exact ih fd
        · rw [if_neg habs]
          exact ih fd
      · rw [if_neg h2]
        exact ih fd

/-! ## The claims -/

/-- Claim C9: for every input descriptor list, the list Top passes to
the structured provider equals the concatenation, in input order, of
each input token split on commas with empty tokens discarded. The
provider of the environment is arbitrary, so the first equation pins
the argument of the provider call to the spec-side list. -/
theorem top_comma_normalization (c : Container) (env : TopEnv)
    (descriptors : List String)
    (h1 : c.config.NoCgroups = false) (h2 : env.state = .ok .running) :
    Top c env descriptors = afterStructured env descriptors (specCommaTokens descriptors)
    ∧ commaDescriptors descriptors = specCommaTokens descriptors := by
  refine ⟨?_, commaDescriptors_eq_spec descriptors⟩
  simp [Top, h1, h2, commaDescriptors_eq_spec]

/-- Witness for C9 at a concrete comma-joined descriptor list. -/
theorem top_comma_normalization_witness :
    Top cOk envRunningIdle ["pid,comm", "", "args"]
      = afterStructured envRunningIdle ["pid,comm", "", "args"] ["pid", "comm", "args"]
    ∧ commaDescriptors ["pid,comm", "", "args"] = ["pid", "comm", "args"] := by
  have h := top_comma_normalization cOk envRunningIdle ["pid,comm", "", "args"] rfl rfl
  refine ⟨h.1.trans ?_, h.2.trans (by decide)⟩
  exact congrArg (afterStructured envRunningIdle ["pid,comm", "", "args"]) (by decide)

/-- Claim C1: when the structured provider fails with an error matching
UnknownDescriptor, Top invokes the fallback with the shlex-split
original descriptors, empties discarded (first conjunct, for an
arbitrary fallback executor in the environment); and when shlex
splitting of some original descriptor fails, Top returns the
descriptor-parse error — an equation in which the fallback executor of
the environment does not occur, so the fallback is not invoked (second
conjunct). -/
theorem top_fallback_retokenizes_original (c : Container) (env : TopEnv)
    (descriptors : List String) (psgoErr : GoError)
    (h1 : c.config.NoCgroups = false) (h2 : env.state = .ok .running)
    (h3 : env.psgo (commaDescriptors descriptors) = .error psgoErr)
    (h4 : errorsIs psgoErr ErrUnknownDescriptor = true) :
    (∀ toks : String → List String,
      (∀ d ∈ descriptors, env.shlexSplit d = .ok (toks d)) →
      Top c env descriptors = fallbackStage env descriptors
        ((descriptors.map (fun d => (toks d).filter (fun s => s != ""))).flatten))
    ∧ (∀ (pre : List String) (d : String) (post : List String) (e : GoError),
      descriptors = pre ++ d :: post →
      (∀ x ∈ pre, ∃ ts, env.shlexSplit x = .ok ts) →
      env.shlexSplit d = .error e →
      Top c env descriptors = .error (.wrap "parsing ps args" e)) := by
  have htop : Top c env descriptors
      = afterStructured env descriptors (commaDescriptors descriptors) := by
    simp [Top, h1, h2]
  constructor
  · intro toks htoks
    rw [htop]
    simp [afterStructured, GetContainerPidInformation, h3, h4,
      shlexDescriptors_ok env.shlexSplit toks descriptors htoks]
  · intro pre d post e hds hpre hd
    rw [htop]
    have herr := shlexDescriptors_err env.shlexSplit e pre d post hpre hd
    rw [← hds] at herr
    simp [afterStructured, GetContainerPidInformation, h3, h4, herr]

/-- Witness for C1: a quoted two-word descriptor survives as the two
shlex tokens, not the comma-split token. -/
theorem top_fallback_retokenizes_original_witness :
    Top cOk envUnknown ["time comm"]
      = fallbackStage envUnknown ["time comm"] ["time", "comm"] := by
  have h := (top_fallback_retokenizes_original cOk envUnknown ["time comm"]
      (GoError.wrap "join" ErrUnknownDescriptor) rfl rfl rfl (by decide)).1
      (fun _ => ["time", "comm"]) (fun d _ => rfl)
  rw [h]
  decide

/-- Claim C2 counterexample: for a provider error that does not match
UnknownDescriptor, Top returns the very error value, which carries no
context wrapper at all — contradicting the part of the claim that the
error comes back wrapped with context identifying the stage. -/
theorem top_psgo_error_unwrapped_cex :
    Top cOk envBoom ["pid"] = .error (.base "boom")
    ∧ isWrapped (GoError.base "boom") = false := by decide

/-- Claim C2 as amended: UnknownDescriptor is the only
structured-provider error Top intercepts; every other provider error is
returned to the caller unchanged, with no additional wrapping added on
this path. -/
theorem top_psgo_error_returned_unchanged (c : Container) (env : TopEnv)
    (descriptors : List String) (e : GoError)
    (h1 : c.config.NoCgroups = false) (h2 : env.state = .ok .running)
    (h3 : env.psgo (commaDescriptors descriptors) = .error e)
    (h4 : errorsIs e ErrUnknownDescriptor = false) :
    Top c env descriptors = .error e := by
  simp [Top, h1, h2, afterStructured, GetContainerPidInformation, h3, h4]

/-- Witness for the amended C2 at a concrete provider error. -/
theorem top_psgo_error_returned_unchanged_witness :
    Top cOk envBoom ["pid"] = .error (.base "boom") :=
  top_psgo_error_returned_unchanged cOk envBoom ["pid"] (.base "boom")
    rfl rfl rfl (by decide)

/-- Claim C3: on the fallback path Top returns exactly the executor
output with every line containing the space-joined original descriptors
removed, and consequently the joined descriptor string is never among
the returned lines. -/
theorem top_filters_invocation_echo (c : Container) (env : TopEnv)
    (descriptors psDescriptors output : List String) (psgoErr : GoError)
    (h1 : c.config.NoCgroups = false) (h2 : env.state = .ok .running)
    (h3 : env.psgo (commaDescriptors descriptors) = .error psgoErr)
    (h4 : errorsIs psgoErr ErrUnknownDescriptor = true)
    (h5 : shlexDescriptors env.shlexSplit descriptors = .ok psDescriptors)
    (h6 : execPS env.host psDescriptors = (output, none)) :
    Top c env descriptors = .ok (filterCmdLines descriptors output)
    ∧ goJoin " " descriptors ∉ filterCmdLines descriptors output := by
  refine ⟨?_, joined_not_mem_filterCmdLines descriptors output⟩
  simp [Top, h1, h2, afterStructured, GetContainerPidInformation, h3, h4, h5,
    fallbackStage, h6]

/-- Witness for C3: the child echoes a line containing the invocation
and that line is filtered out. -/
theorem top_filters_invocation_echo_witness :
    Top cOk envEcho ["-ef"] = .ok (filterCmdLines ["-ef"] ["PID CMD", "7 ps -ef"])
    ∧ goJoin " " ["-ef"] ∉ filterCmdLines ["-ef"] ["PID CMD", "7 ps -ef"]
    ∧ filterCmdLines ["-ef"] ["PID CMD", "7 ps -ef"] = ["PID CMD"] := by
  have h := top_filters_invocation_echo cOk envEcho ["-ef"] ["-ef"]
    ["PID CMD", "7 ps -ef"] ErrUnknownDescriptor rfl rfl rfl (by decide)
    (by decide) (by decide)
  exact ⟨h.1, h.2, by decide⟩

/-- Claim C4: whenever an execPS invocation reaches the child-run phase
with final argument vector args, a non-zero exit with non-empty stderr
yields the error carrying the exit code and the stderr text verbatim; a
non-zero exit with empty stderr, or a launch failure, yields the
generic execution-failure wrap of the underlying cause with no
fabricated diagnostic text. -/
theorem execPS_error_classification (env : HostEnv) (psArgs args : List String)
    (hreach : execPS env psArgs = runPhase env args) :
    (∀ (code : Int) (lines : List String) (st : String),
      env.run args = .exited code lines st → code ≠ 0 → st ≠ "" →
      execPS env psArgs = (lines, some (.base
        ("ps failed with exit code " ++ intRepr code ++ ": " ++ st))))
    ∧ (∀ (code : Int) (lines : List String),
      env.run args = .exited code lines "" → code ≠ 0 →
      execPS env psArgs
        = (lines, some (.wrap "could not execute ps in the container" (.exitErr code))))
    ∧ (∀ e : GoError,
      env.run args = .startFailed e →
      execPS env psArgs
        = ([], some (.wrap "could not execute ps in the container" e))) := by
  refine ⟨?_, ?_, ?_⟩
  · intro code lines st hrun hc hst
    rw [hreach]
    simp [runPhase, hrun, hc, hst]
  · intro code lines hrun hc
    rw [hreach]
    simp [runPhase, hrun, hc]
  · intro e hrun
    rw [hreach]
    simp [runPhase, hrun]

/-- Witness for C4: the three classifications at concrete hosts. -/
theorem execPS_error_classification_witness :
    execPS hostExit2 ["x"]
      = (["out line"], some (.base "ps failed with exit code 2: boom"))
    ∧ execPS hostExitSilent ["x"]
      = (["out line"], some (.wrap "could not execute ps in the container" (.exitErr 3)))
    ∧ execPS hostStartFail ["x"]
      = ([], some (.wrap "could not execute ps in the container" (.base "no such file"))) := by
  refine ⟨?_, ?_, ?_⟩
  · have h := (execPS_error_classification hostExit2 ["x"] (fdPath 3 :: ["x"]) rfl).1
      2 ["out line"] "boom" rfl (by decide) (by decide)
    exact h.trans (by decide)
  · have h := (execPS_error_classification hostExitSilent ["x"] (fdPath 3 :: ["x"]) rfl).2.1
      3 ["out line"] rfl (by decide)
    exact h.trans (by decide)
  · have h := (execPS_error_classification hostStartFail ["x"] (fdPath 3 :: ["x"]) rfl).2.2
      (.base "no such file") rfl
    exact h.trans (by decide)

/-- Claim C5: for a dynamically linked borrowed binary (ldd succeeded
and the scan completed), the preload list is exactly the spec-side
alias list — one alias per reported shared-library line that resolves,
in reported order — with no alias repeated, the recorded linker path is
an fd alias (or empty when no linker line resolved), and the final
invocation is the linker path, the argument-zero override to the
literal name ps, the preload instruction with the space-joined aliases,
then the borrowed ps fd path followed by the caller descriptor
tokens. -/
theorem execPS_preload_construction (env : HostEnv) (psArgs : List String)
    (p out : String) (fd' : Nat) (preload : List String) (linkerPath : String)
    (h1 : env.psLookup = .ok p) (h2 : env.openOk p = true)
    (h3 : env.lddOut = .ok out)
    (h4 : processLddLines env (goSplitOn '\n' out) 4 [] ""
      = .ok (fd', preload, linkerPath)) :
    preload = specPreloadAliases env (goSplitOn '\n' out) 4
    ∧ preload.Nodup
    ∧ (linkerPath = "" ∨ ∃ k, linkerPath = fdPath k)
    ∧ execPS env psArgs = runPhase env
        (linkerPath :: "--argv0" :: "ps" :: "--preload" ::
          goJoin " " preload :: fdPath 3 :: psArgs) := by
  have hpre := processLddLines_ok_preload env _ 4 [] "" _ _ _ h4
  refine ⟨by simpa using hpre, ?_, ?_, ?_⟩
  · rw [hpre]
    simpa using specPreloadAliases_nodup env (goSplitOn '\n' out) 4
  · rcases processLddLines_ok_linker env _ 4 [] "" _ _ _ h4 with heq | hk
    · exact .inl heq
    · exact .inr hk
  · simp [execPS, h1, h2, h3, h4]

/-- Witness for C5 at a concrete two-line linkage report: libc gets
alias fd 4, the linker gets alias fd 5, and the invocation has the
required shape. -/
theorem execPS_preload_construction_witness :
    processLddLines hostDyn (goSplitOn '\n' lddSample) 4 [] ""
      = .ok (6, ["/proc/self/fd/4"], "/proc/self/fd/5")
    ∧ execPS hostDyn ["-ef"] = runPhase hostDyn
        ["/proc/self/fd/5", "--argv0", "ps", "--preload",
          "/proc/self/fd/4", "/proc/self/fd/3", "-ef"]
    ∧ (["/proc/self/fd/4"] : List String).Nodup := by
  have hproc : processLddLines hostDyn (goSplitOn '\n' lddSample) 4 [] ""
      = .ok (6, ["/proc/self/fd/4"], "/proc/self/fd/5") := by decide
  have h := execPS_preload_construction hostDyn ["-ef"] "/usr/bin/ps" lddSample
    6 ["/proc/self/fd/4"] "/proc/self/fd/5" rfl rfl rfl hproc
  refine ⟨hproc, ?_, by decide⟩
  have hx := h.2.2.2
  rw [hx]
  decide

/-- Claim C6: when the linkage-inspection tool fails to run, execPS
does not fail at that step: it proceeds to execute the borrowed ps fd
path with the caller descriptor tokens and no preloading. -/
theorem execPS_ldd_failure_nonfatal (env : HostEnv) (psArgs : List String)
    (p : String) (e : GoError)
    (h1 : env.psLookup = .ok p) (h2 : env.openOk p = true)
    (h3 : env.lddOut = .error e) :
    execPS env psArgs = runPhase env (fdPath 3 :: psArgs) := by
  simp [execPS, h1, h2, h3]

/-- Witness for C6: with ldd failing, the child still runs on the bare
fd-alias invocation and execPS succeeds. -/
theorem execPS_ldd_failure_nonfatal_witness :
    execPS hostIdle ["aux"] = runPhase hostIdle ["/proc/self/fd/3", "aux"]
    ∧ execPS hostIdle ["aux"] = ([], none) := by
  have h := execPS_ldd_failure_nonfatal hostIdle ["aux"] "/usr/bin/ps"
    (.base "ldd failed") rfl rfl rfl
  constructor
  · rw [h]; decide
  · rw [h]; decide

/-- Claim C7 counterexample: a stopped container created without a
cgroup is not in the running state, yet Top fails with the NoCgroups
error, not the NotRunning error. -/
theorem top_not_running_cex :
    envStopped.state = Except.ok ContainerState.stopped
    ∧ Top cNoCg envStopped ["pid"]
        ≠ .error (.base "top can only be used on running containers")
    ∧ Top cNoCg envStopped ["pid"] = .error (.wrap
        "cannot run top on container c1 as it did not create a cgroup" ErrNoCgroups) := by
  decide

/-- Claim C7 as amended: for every container with a cgroup whose state
lookup succeeds with a non-running state, Top fails with the NotRunning
error regardless of the descriptor list supplied. -/
theorem top_notrunning_when_cgrouped (c : Container) (env : TopEnv)
    (descriptors : List String) (s : ContainerState)
    (h1 : c.config.NoCgroups = false) (h2 : env.state = .ok s)
    (h3 : s ≠ .running) :
    Top c env descriptors = .error (.base "top can only be used on running containers") := by
  simp [Top, h1, h2, h3]

/-- Witness for the amended C7 at a stopped container with a cgroup. -/
theorem top_notrunning_when_cgrouped_witness :
    Top cOk envStopped ["pid"]
      = .error (.base "top can only be used on running containers") :=
  top_notrunning_when_cgrouped cOk envStopped ["pid"] .stopped rfl rfl (by decide)

/-- Claim C8: for every container created without a cgroup, Top fails
with the NoCgroups error for every environment and every descriptor
list — the environment carries the state lookup, the provider and the
host facilities, so no state inspection, provider call or namespace
operation can influence the result. -/
theorem top_nocgroups_first (c : Container) (h : c.config.NoCgroups = true) :
    ∀ (env : TopEnv) (descriptors : List String),
      Top c env descriptors = .error (.wrap ("cannot run top on container " ++ c.id ++
        " as it did not create a cgroup") ErrNoCgroups)
      ∧ errorsIs (GoError.wrap ("cannot run top on container " ++ c.id ++
          " as it did not create a cgroup") ErrNoCgroups) ErrNoCgroups = true := by
  intro env descriptors
  constructor
  · simp [Top, h]
  · simp [errorsIs, ErrNoCgroups]

/-- Witness for C8 at a concrete cgroup-less container. -/
theorem top_nocgroups_first_witness :
    Top cNoCg envRunningIdle ["pid"] = .error (.wrap
      "cannot run top on container c1 as it did not create a cgroup" ErrNoCgroups) := by
  have h := (top_nocgroups_first cNoCg rfl envRunningIdle ["pid"]).1
  rw [h]
  decide

/-- Claim C10: the two open failures of the linkage scan are handled
asymmetrically — a shared-library line whose path does not open is
skipped with the scan state unchanged (first conjunct), while a
dynamic-linker line whose path does not open aborts the scan with that
open error (second conjunct), which execPS then returns without ever
invoking the child (third conjunct, for an arbitrary run function in
the environment). -/
theorem execPS_open_failure_asymmetry (env : HostEnv) :
    (∀ (line : String) (rest : List String) (fd : Nat)
      (preload : List String) (linkerPath : String),
      3 < (goFields line).length →
      env.openOk ((goFields line).getD 2 "") = false →
      processLddLines env (line :: rest) fd preload linkerPath
        = processLddLines env rest fd preload linkerPath)
    ∧ (∀ (line : String) (rest : List String) (fd : Nat)
      (preload : List String) (linkerPath : String),
      (goFields line).length = 2 →
      isAbsGo ((goFields line).getD 0 "") = true →
      env.openOk ((goFields line).getD 0 "") = false →
      processLddLines env (line :: rest) fd preload linkerPath
        = .error (env.openErr ((goFields line).getD 0 "")))
    ∧ (∀ (psArgs : List String) (p out : String) (err : GoError),
      env.psLookup = .ok p → env.openOk p = true → env.lddOut = .ok out →
      processLddLines env (goSplitOn '\n' out) 4 [] "" = .error err →
      execPS env psArgs = ([], some err)) := by
  refine ⟨?_, ?_, ?_⟩
  · intro line rest fd preload linkerPath h3 ho
    have ho2 : env.openOk ((goFields line)[2]?.getD "") = false := by
      simpa using ho
    simp only [processLddLines]
    rw [if_pos h3, if_neg (by simp [ho2])]
  · intro line rest fd preload linkerPath h2 habs ho
    have ho2 : env.openOk ((goFields line)[0]?.getD "") = false := by
      simpa using ho
    have h3 : ¬ 3 < (goFields line).length := by omega
    simp only [processLddLines]
    rw [if_neg h3, if_pos h2, if_pos habs, if_neg (by simp [ho2])]
  · intro psArgs p out err hp hop hldd hproc
    simp [execPS, hp, hop, hldd, hproc]

/-- Witness for C10: a missing shared library is skipped leaving the
scan state untouched, while a missing linker aborts the scan and
execPS returns the open error. -/
theorem execPS_open_failure_asymmetry_witness :
    processLddLines hostSel [libFailLine] 4 [] "" = .ok (4, [], "")
    ∧ processLddLines hostSel [linkFailLine] 4 [] ""
        = .error (.base "open /lib64/ld-bad.so")
    ∧ execPS hostSel ["x"] = ([], some (.base "open /lib64/ld-bad.so")) := by
  have hA := (execPS_open_failure_asymmetry hostSel).1 libFailLine [] 4 [] ""
    (by decide) (by decide)
  have hB := (execPS_open_failure_asymmetry hostSel).2.1 linkFailLine [] 4 [] ""
    (by decide) (by decide) (by decide)
  have hC := (execPS_open_failure_asymmetry hostSel).2.2 ["x"] "/usr/bin/ps"
    linkFailLine (.base "open /lib64/ld-bad.so") rfl rfl rfl (by decide)
  refine ⟨hA.trans (by decide), ?_, hC⟩
  rw [hB]
  decide

end LibpodTop
